import Mathlib

/-!
Verification of the zEpid DAG adjustment-set engine specification and of the
sensitivity-analysis E-value functions.

The adjustment-set engine itself (zepid.causal.causalgraph) is not part of the
available source tree; only its test suite is.  Its data model and algorithms
are therefore modelled from the specification (sections 3, 4, 6 and 7), and the
model is checked against the concrete scenarios recorded in
tests/test_causalgraphs.py.  The E-value functions are embedded directly from
zepid/sens_analysis/sens_analysis.py.
-/

set_option maxRecDepth 8000

/-! ## Part 1: the DAG adjustment-set engine, modelled from the spec -/

/-- Modelled from the spec: an arrow is an ordered pair of node labels
(source node, target node), directed and unweighted. -/
abbrev Arrow := String × String

/-- Modelled from the spec: error kinds of the engine.  GraphStructureError is
raised when the graph contains a cycle or when exposure and outcome coincide.
InvalidInputError covers malformed arrow pairs; malformed non-pair input is not
representable in this typed embedding, and a self-loop is treated by the engine
as a 1-cycle, detected by the lazily run acyclicity check at computation time
per the addArrows contract of spec section 4.1 (no failure at insertion). -/
inductive CausalGraphError
  | GraphStructureError
  | InvalidInputError
deriving DecidableEq, Repr

/-- Modelled from the spec: the engine state.  Exposure and outcome are fixed
at construction; arrows accumulate through add_arrows; adjustment sets are
computed on demand and stored on the instance (none while not yet computed or
after invalidation). -/
structure DirectedAcyclicGraph where
  exposure : String
  outcome : String
  arrows : List Arrow
  adjustment_sets : Option (List (List String))
  minimal_adjustment_sets : Option (List (List String))
deriving DecidableEq, Repr

/-- Modelled from the spec: construction from the two required labels, with an
empty arrow collection and no computed adjustment sets. -/
def DirectedAcyclicGraph.init (exposure outcome : String) : DirectedAcyclicGraph :=
  ⟨exposure, outcome, [], none, none⟩

/-- Modelled from the spec: insertion of one directed edge, idempotent under
repeated identical input. -/
def insertArrow (arrows : List Arrow) (p : Arrow) : List Arrow :=
  if p ∈ arrows then arrows else arrows ++ [p]

/-- Modelled from the spec: add_arrows inserts each pair as a directed edge and
invalidates any previously computed adjustment sets.  Per the contract of spec
section 4.1 it has no failure mode; acyclicity is checked lazily at computation
time, not on insert. -/
def DirectedAcyclicGraph.add_arrows (d : DirectedAcyclicGraph) (pairs : List Arrow) :
    DirectedAcyclicGraph :=
  { d with arrows := pairs.foldl insertArrow d.arrows,
           adjustment_sets := none, minimal_adjustment_sets := none }

/-- Modelled from the spec: direct successors (children) of a node. -/
def childrenOf (arrows : List Arrow) (u : String) : List String :=
  arrows.filterMap (fun p => if p.1 = u then some p.2 else none)

/-- Modelled from the spec: direct predecessors (parents) of a node. -/
def parentsOf (arrows : List Arrow) (u : String) : List String :=
  arrows.filterMap (fun p => if p.2 = u then some p.1 else none)

/-- Modelled from the spec: the node collection of the engine, containing
exposure and outcome (added automatically even when never referenced by an
arrow) and every label occurring in an arrow. -/
def nodesOf (d : DirectedAcyclicGraph) : List String :=
  (d.exposure :: d.outcome :: d.arrows.flatMap (fun p => [p.1, p.2])).dedup

/-- Modelled from the spec: one expansion step of the forward reachability
closure, collecting the not yet visited children of the accumulated nodes. -/
def stepFrontier (arrows : List Arrow) (acc : List String) : List String :=
  ((acc.flatMap (childrenOf arrows)).filter (fun v => decide (v ∉ acc))).dedup

/-- Modelled from the spec: fuelled breadth-first reachability closure over the
child map, stopping when no new node appears. -/
def reachList (arrows : List Arrow) : Nat → List String → List String
  | 0, acc => acc
  | fuel+1, acc =>
    if stepFrontier arrows acc = [] then acc
    else reachList arrows fuel (acc ++ stepFrontier arrows acc)

/-- Fuel sufficient for the reachability closure to stabilise: every node it
can ever add is the target of some arrow. -/
def reachFuel (arrows : List Arrow) : Nat :=
  ((arrows.map Prod.snd).dedup).length + 1

/-- Modelled from the spec: the descendants of a node are all nodes reachable
by following arrows forward, computed by reachability closure over the child
map. -/
def descendantsOf (arrows : List Arrow) (u : String) : List String :=
  reachList arrows (reachFuel arrows) ((childrenOf arrows u).dedup)

/-- Modelled from the spec: the graph contains a directed cycle exactly when
some node is among its own descendants. -/
def hasCycleB (arrows : List Arrow) (nodes : List String) : Bool :=
  nodes.any (fun n => decide (n ∈ descendantsOf arrows n))

/-- Modelled from the spec: acyclicity check of the engine, run lazily before
adjustment-set computation. -/
def DirectedAcyclicGraph.hasCycle (d : DirectedAcyclicGraph) : Bool :=
  hasCycleB d.arrows (nodesOf d)

/-- Modelled from the spec: the moves available from a node in the undirected
skeleton.  A step to v carries true when it follows an arrow from u to v (the
edge points into v) and false when it goes against an arrow from v to u (the
edge points into u). -/
def skeletonSteps (arrows : List Arrow) (u : String) : List (String × Bool) :=
  (childrenOf arrows u).map (fun v => (v, true)) ++
    (parentsOf arrows u).map (fun v => (v, false))

/-- Modelled from the spec: depth-first enumeration of all simple paths from a
node to the outcome in the undirected skeleton, recording for each visited node
the direction of the edge used to enter it. -/
def simplePathsTo (arrows : List Arrow) (outcome : String) :
    Nat → String → List String → List (List (String × Bool))
  | 0, _, _ => []
  | fuel+1, u, visited =>
    (skeletonSteps arrows u).flatMap (fun s =>
      if s.1 ∈ visited then []
      else if s.1 = outcome then [[s]]
      else (simplePathsTo arrows outcome fuel s.1 (s.1 :: visited)).map (fun rest => s :: rest))

/-- Modelled from the spec: the backdoor paths are the simple skeleton paths
from exposure to outcome whose first edge points into the exposure node, i.e.
whose first step goes against an arrow. -/
def backdoor_paths (d : DirectedAcyclicGraph) : List (List (String × Bool)) :=
  (simplePathsTo d.arrows d.outcome (nodesOf d).length d.exposure [d.exposure]).filter
    (fun p => match p with
      | (_, false) :: _ => true
      | _ => false)

/-- Modelled from the spec: the path-blocking predicate of section 4.4.  A path
is blocked by a conditioning set S when some intermediate node is a
non-collider belonging to S, or is a collider such that neither the collider
itself nor any of its descendants belongs to S.  A node is a collider on a path
exactly when both adjacent edges point into it: it was entered along an arrow
and left against an arrow. -/
def pathBlocked (arrows : List Arrow) (condSet : List String) (p : List (String × Bool)) : Bool :=
  (p.zip p.tail).any (fun q =>
    if q.1.2 && !q.2.2 then
      !(decide (q.1.1 ∈ condSet) ||
        (descendantsOf arrows q.1.1).any (fun w => decide (w ∈ condSet)))
    else
      decide (q.1.1 ∈ condSet))

/-- Modelled from the spec: the intermediate nodes of a recorded path, i.e.
every visited node except the final outcome node. -/
def intermediatesOf (p : List (String × Bool)) : List String :=
  (p.zip p.tail).map (fun q => q.1.1)

/-- Modelled from the spec: the candidate-variable collection over which
subsets are enumerated.  Spec section 4.5 restricts the candidate collection
to variables that can appear on a backdoor path; nodes causally disconnected
from exposure and outcome play no role and are excluded.  (The narrower
phrasing in terms of ancestors alone contradicts scenario 3 of the spec and
the recorded test for the M-bias structure, where the collider B is a valid
member of adjustment sets while being an ancestor of neither exposure nor
outcome, so the candidate collection is taken to be exactly the variables
occurring as intermediates of backdoor paths.) -/
def candidatesOf (d : DirectedAcyclicGraph) : List String :=
  ((backdoor_paths d).flatMap intermediatesOf).dedup

/-- Modelled from the spec: a conditioning set is valid when it simultaneously
blocks every backdoor path. -/
def blocksAll (d : DirectedAcyclicGraph) (condSet : List String) : Bool :=
  (backdoor_paths d).all (fun p => pathBlocked d.arrows condSet p)

/-- Two label collections are distinct as sets when their element sets
differ. -/
def distinctAsSets (a b : List String) : Prop := a.toFinset ≠ b.toFinset

instance : DecidableRel distinctAsSets := fun a b => by
  unfold distinctAsSets; infer_instance

/-- Modelled from the spec: power-set enumeration over the candidate
collection, keeping the subsets that block all backdoor paths, stored as a
collection deduplicated under set equality. -/
def adjustmentSetsOf (d : DirectedAcyclicGraph) : List (List String) :=
  List.pwFilter distinctAsSets (((candidatesOf d).sublists).filter (fun s => blocksAll d s))

/-- Modelled from the spec: the first collection is a proper subset of the
second as sets of labels. -/
def isProperSubsetOf (a b : List String) : Bool :=
  decide (∀ x ∈ a, x ∈ b) && !(decide (∀ x ∈ b, x ∈ a))

/-- Modelled from the spec: minimisation retains only the valid sets having no
valid strict subset among the valid sets. -/
def minimalAdjustmentSetsOf (d : DirectedAcyclicGraph) : List (List String) :=
  (adjustmentSetsOf d).filter
    (fun s => !((adjustmentSetsOf d).any (fun t => isProperSubsetOf t s)))

/-- Modelled from the spec: calculate_adjustment_sets raises
GraphStructureError when exposure and outcome coincide or when the graph
contains a directed cycle, and otherwise populates both result collections.
Recomputation is deterministic, so storing recomputed results coincides with
the cache described by the spec lifecycle. -/
def DirectedAcyclicGraph.calculate_adjustment_sets (d : DirectedAcyclicGraph) :
    Except CausalGraphError DirectedAcyclicGraph :=
  if d.exposure = d.outcome then .error .GraphStructureError
  else if d.hasCycle = true then .error .GraphStructureError
  else .ok { d with adjustment_sets := some (adjustmentSetsOf d),
                    minimal_adjustment_sets := some (minimalAdjustmentSetsOf d) }

/-- Directed reachability along arrows, as an inductive relation: the
transitive closure of single arrow steps.  A directed cycle exists exactly when
some node reaches itself. -/
inductive Reaches (arrows : List Arrow) : String → String → Prop
  | single {u v : String} : (u, v) ∈ arrows → Reaches arrows u v
  | tail {u v w : String} : Reaches arrows u v → (v, w) ∈ arrows → Reaches arrows u w

/-- The six arrows of scenario 1 of the spec (test_adjustment_set_1). -/
def arrowList1 : List Arrow :=
  [("X","Y"),("Z","X"),("Z","Y"),("W","X"),("W","V"),("V","Y")]

/-- The arrows of scenario 2 of the spec (test_adjustment_set_2). -/
def arrowList2 : List Arrow := [("X","Y"),("X","C"),("Y","C")]

/-- The arrows of the M-bias structure (test_mbias). -/
def arrowMbias : List Arrow := [("X","Y"),("U1","X"),("U1","B"),("U2","B"),("U2","Y")]

/-- The arrows of the butterfly structure (test_butterfly). -/
def arrowButterfly : List Arrow :=
  [("X","Y"),("B","X"),("B","Y"),("U1","X"),("U1","B"),("U2","B"),("U2","Y")]

/-- The engine state built from scenario 1. -/
def dagScenario1 : DirectedAcyclicGraph :=
  (DirectedAcyclicGraph.init "X" "Y").add_arrows arrowList1

/-- The engine state of scenario 1 after a successful computation. -/
def dagScenario1Calc : DirectedAcyclicGraph :=
  { dagScenario1 with adjustment_sets := some (adjustmentSetsOf dagScenario1),
                      minimal_adjustment_sets := some (minimalAdjustmentSetsOf dagScenario1) }

/-- The engine state built from scenario 2. -/
def dagScenario2 : DirectedAcyclicGraph :=
  (DirectedAcyclicGraph.init "X" "Y").add_arrows arrowList2

/-- The engine state built from the butterfly structure. -/
def dagButterfly : DirectedAcyclicGraph :=
  (DirectedAcyclicGraph.init "X" "Y").add_arrows arrowButterfly

/-- The engine state of the butterfly structure after a successful
computation. -/
def dagButterflyCalc : DirectedAcyclicGraph :=
  { dagButterfly with adjustment_sets := some (adjustmentSetsOf dagButterfly),
                      minimal_adjustment_sets := some (minimalAdjustmentSetsOf dagButterfly) }

/-! ## Part 2: the E-value functions of sens_analysis.py -/

/-- Python exception kinds observable from the two E-value functions. -/
inductive PyError
  | NameError
  | ValueError
  | ZeroDivisionError
deriving DecidableEq, Repr

/-- Embedding of math.sqrt: Python raises ValueError (math domain error) on a
negative argument. -/
noncomputable def pysqrt (x : ℝ) : Except PyError ℝ :=
  if x < 0 then .error .ValueError else .ok (Real.sqrt x)

/-- Embedding of Python float division: raises ZeroDivisionError on a zero
denominator. -/
noncomputable def pydiv (a b : ℝ) : Except PyError ℝ :=
  if b = 0 then .error .ZeroDivisionError else .ok (a / b)

/-- Embedding of e_value_difference (sens_analysis.py lines 194-234).  The
returned pair carries the two values that the source prints (point estimate
and confidence limit E-value, before display rounding; the decimal display
parameter is not modelled).  In the branch where m is at least null and l
exceeds null, the source references the undefined name lcl, which raises
NameError. -/
noncomputable def e_value_difference (stand_effect_size se null : ℝ) :
    Except PyError (ℝ × ℝ) :=
  (pydiv (Real.exp (0.91 * stand_effect_size)) null).bind fun m =>
  (pydiv (Real.exp ((0.91 * stand_effect_size) - (1.78 * se))) null).bind fun l =>
  (pydiv (Real.exp ((0.91 * stand_effect_size) + (1.78 * se))) null).bind fun u =>
  if null ≤ m then
    (pysqrt (m * (m - 1))).bind fun sq =>
    if null < l then .error .NameError
    else .ok (m + sq, 1)
  else
    (pydiv 1 m).bind fun mi =>
    (pysqrt (mi * (mi - 1))).bind fun sq =>
    if u < null then
      (pydiv 1 u).bind fun ui =>
      (pysqrt (ui * (ui - 1))).bind fun sq2 => .ok (mi + sq, ui + sq2)
    else .ok (mi + sq, 1)

/-- Embedding of e_value_RD (sens_analysis.py lines 237-302) up to the second
explicit raise (line 281).  A successful value carries the point-estimate
E-value at the moment control passes that check; the subsequent
confidence-limit computation (scipy normal quantile and float grid search,
lines 282-298) is reached only when p1 - p0 exceeds null and is outside the
scope of the stated claims, being a floating-point special-function
computation.  The pure squares s1_2 and s0_2 of lines 271-272 raise nothing
and are only consumed by that unmodelled tail. -/
noncomputable def e_value_RD (N f p1 se1 p0 se0 null alpha : ℝ) : Except PyError ℝ :=
  if p1 < p0 then .error .ValueError
  else
    (pydiv (f * (1 - f)) N).bind fun _sf =>
    (pysqrt ((null + ((p0 * (1 - f)) - (p1 * f))) ^ 2 +
        (4 * p1 * p0 * f * (1 - f)))).bind fun root =>
    (pydiv (root - (null + ((p0 * (1 - f)) - (p1 * f)))) (2 * p0 * f)).bind fun m =>
    ((if null ≤ m then
        (pysqrt (m * (m - 1))).bind fun sq => .ok (m + sq)
      else
        (pydiv 1 m).bind fun mi =>
        (pysqrt (mi * (mi - 1))).bind fun sq =>
        .ok (mi + sq) : Except PyError ℝ)).bind fun evalue =>
    if p1 - p0 ≤ null then .error .ValueError
    else .ok evalue

/-! ## Helper lemmas -/

theorem mem_childrenOf {arrows : List Arrow} {u v : String} :
    v ∈ childrenOf arrows u ↔ (u, v) ∈ arrows := by
  simp only [childrenOf, List.mem_filterMap]
  constructor
  · rintro ⟨⟨a, b⟩, hab, h⟩
    by_cases hau : a = u
    · subst hau
      rw [if_pos rfl] at h
      obtain rfl := Option.some.inj h
      exact hab
    · simp [hau] at h
  · intro h
    exact ⟨(u, v), h, by simp⟩

theorem stepFrontier_subset {arrows : List Arrow} {acc : List String} :
    stepFrontier arrows acc ⊆ (arrows.map Prod.snd).dedup := by
  intro x hx
  simp only [stepFrontier, List.mem_dedup, List.mem_filter, List.mem_flatMap] at hx
  obtain ⟨⟨u, _, hxu⟩, -⟩ := hx
  rw [List.mem_dedup, List.mem_map]
  exact ⟨(u, x), mem_childrenOf.mp hxu, rfl⟩

theorem stepFrontier_disjoint {arrows : List Arrow} {acc : List String} :
    acc.Disjoint (stepFrontier arrows acc) := by
  intro a ha hstep
  simp only [stepFrontier, List.mem_dedup, List.mem_filter, decide_eq_true_eq] at hstep
  exact hstep.2 ha

theorem subset_reachList (arrows : List Arrow) :
    ∀ (fuel : Nat) (acc : List String), acc ⊆ reachList arrows fuel acc := by
  intro fuel
  induction fuel with
  | zero => intro acc x h; exact h
  | succ n ih =>
    intro acc
    rw [reachList]
    split
    · exact fun x h => h
    · exact fun x h => ih (acc ++ stepFrontier arrows acc) (List.mem_append_left _ h)

theorem reachList_stable (arrows : List Arrow) :
    ∀ (fuel : Nat) (acc : List String), acc.Nodup →
      acc ⊆ (arrows.map Prod.snd).dedup →
      ((arrows.map Prod.snd).dedup).length < fuel + acc.length →
      stepFrontier arrows (reachList arrows fuel acc) = [] := by
  intro fuel
  induction fuel with
  | zero =>
    intro acc hnd hsub hlen
    have hle := (hnd.subperm hsub).length_le
    exfalso; omega
  | succ n ih =>
    intro acc hnd hsub hlen
    rw [reachList]
    split
    · next hemp => exact hemp
    · next hne =>
      apply ih
      · exact hnd.append (List.nodup_dedup _) stepFrontier_disjoint
      · intro x hx
        rcases List.mem_append.mp hx with h | h
        · exact hsub h
        · exact stepFrontier_subset h
      · rw [List.length_append]
        have hpos : 0 < (stepFrontier arrows acc).length := List.length_pos.mpr hne
        omega

theorem childrenOf_dedup_subset {arrows : List Arrow} {u : String} :
    (childrenOf arrows u).dedup ⊆ (arrows.map Prod.snd).dedup := by
  intro x hx
  rw [List.mem_dedup] at hx
  rw [List.mem_dedup, List.mem_map]
  exact ⟨(u, x), mem_childrenOf.mp hx, rfl⟩

theorem descendantsOf_closed {arrows : List Arrow} {u a b : String}
    (ha : a ∈ descendantsOf arrows u) (hab : (a, b) ∈ arrows) :
    b ∈ descendantsOf arrows u := by
  have hstable : stepFrontier arrows (descendantsOf arrows u) = [] := by
    apply reachList_stable
    · exact List.nodup_dedup _
    · exact childrenOf_dedup_subset
    · unfold reachFuel; omega
  have hfilter := (List.dedup_eq_nil _).mp hstable
  rw [List.filter_eq_nil_iff] at hfilter
  have hmem : b ∈ (descendantsOf arrows u).flatMap (childrenOf arrows) :=
    List.mem_flatMap.mpr ⟨a, ha, mem_childrenOf.mpr hab⟩
  by_contra hb
  exact hfilter b hmem (by simpa using hb)

theorem Reaches.mem_descendantsOf {arrows : List Arrow} {u v : String}
    (h : Reaches arrows u v) : v ∈ descendantsOf arrows u := by
  induction h with
  | single huv =>
    exact subset_reachList arrows _ _ (by rw [List.mem_dedup]; exact mem_childrenOf.mpr huv)
  | tail _ hvw ih => exact descendantsOf_closed ih hvw

theorem Reaches.src_has_arrow {arrows : List Arrow} {u v : String}
    (h : Reaches arrows u v) : ∃ w, (u, w) ∈ arrows := by
  induction h with
  | single huv => exact ⟨_, huv⟩
  | tail _ _ ih => exact ih

theorem Reaches.congr_mem {A B : List Arrow} {u v : String}
    (hAB : ∀ x : Arrow, x ∈ A ↔ x ∈ B) (h : Reaches A u v) : Reaches B u v := by
  induction h with
  | single huv => exact .single ((hAB _).mp huv)
  | tail _ hvw ih => exact .tail ih ((hAB _).mp hvw)

theorem mem_insertArrow {arrows : List Arrow} {p x : Arrow} :
    x ∈ insertArrow arrows p ↔ x ∈ arrows ∨ x = p := by
  unfold insertArrow
  split
  · next hp =>
    constructor
    · exact Or.inl
    · rintro (h | rfl)
      · exact h
      · exact hp
  · simp

theorem mem_foldl_insertArrow (pairs : List Arrow) :
    ∀ (l : List Arrow) (x : Arrow), x ∈ pairs.foldl insertArrow l ↔ x ∈ l ∨ x ∈ pairs := by
  induction pairs with
  | nil => simp
  | cons p ps ih =>
    intro l x
    rw [List.foldl_cons, ih, mem_insertArrow, List.mem_cons]
    tauto

theorem calculate_ok_iff (d e : DirectedAcyclicGraph) :
    d.calculate_adjustment_sets = .ok e ↔
      d.exposure ≠ d.outcome ∧ d.hasCycle = false ∧
      e = { d with adjustment_sets := some (adjustmentSetsOf d),
                   minimal_adjustment_sets := some (minimalAdjustmentSetsOf d) } := by
  unfold DirectedAcyclicGraph.calculate_adjustment_sets
  split
  · simp_all
  · split
    · simp_all
    · next h1 h2 =>
      simp only [Except.ok.injEq]
      constructor
      · intro h; exact ⟨h1, by simpa using h2, h.symm⟩
      · intro h; exact h.2.2.symm

theorem list_toFinset_subset (a b : List String) : a.toFinset ⊆ b.toFinset ↔ a ⊆ b := by
  constructor
  · intro h x hx
    exact List.mem_toFinset.mp (h (List.mem_toFinset.mpr hx))
  · intro h x hx
    exact List.mem_toFinset.mpr (h (List.mem_toFinset.mp hx))

theorem isProperSubsetOf_iff (a b : List String) :
    isProperSubsetOf a b = true ↔ a.toFinset ⊂ b.toFinset := by
  rw [ssubset_iff_subset_not_subset, list_toFinset_subset, list_toFinset_subset]
  simp [isProperSubsetOf, List.subset_def]

theorem exp_091_bounds : (2 : ℝ) < Real.exp 0.91 ∧ Real.exp 0.91 < 4 := by
  constructor
  · have ha : (1.455 : ℝ) ≤ Real.exp 0.455 := by
      have := Real.add_one_le_exp (0.455 : ℝ); linarith
    have hb : Real.exp 0.455 * Real.exp 0.455 = Real.exp 0.91 := by
      rw [← Real.exp_add]; norm_num
    nlinarith [ha, hb]
  · have h1 : Real.exp 0.91 < Real.exp 1 := Real.exp_lt_exp.mpr (by norm_num)
    have h2 := Real.exp_one_lt_d9
    linarith

/-! ## Claim theorems -/

/-- C1: for a DirectedAcyclicGraph with exposure X and outcome Y, after
add_arrows with the six arrows (X,Y),(Z,X),(Z,Y),(W,X),(W,V),(V,Y) and a call
to calculate_adjustment_sets, adjustment_sets holds exactly the three sets
containing W and Z, V and Z, and W, V and Z, as order-irrelevant
duplicate-free label collections, and minimal_adjustment_sets holds exactly
the first two of them. -/
theorem adjustment_sets_scenario1 :
    ∃ e S M, ((DirectedAcyclicGraph.init "X" "Y").add_arrows
        arrowList1).calculate_adjustment_sets = .ok e ∧
      e.adjustment_sets = some S ∧ e.minimal_adjustment_sets = some M ∧
      (S.map List.toFinset).Perm [{"W","Z"}, {"V","Z"}, {"W","V","Z"}] ∧
      (M.map List.toFinset).Perm [{"W","Z"}, {"V","Z"}] :=
  ⟨_, _, _, rfl, rfl, rfl, by decide, by decide⟩

/-- C2: for every graph the engine accepts (distinct exposure and outcome and
no directed cycle) that has zero backdoor paths, calculate_adjustment_sets
populates both adjustment_sets and minimal_adjustment_sets with the
single-element collection containing only the empty set. -/
theorem zero_backdoor_paths_empty_set (d : DirectedAcyclicGraph)
    (hne : d.exposure ≠ d.outcome) (hcyc : d.hasCycle = false)
    (hb : backdoor_paths d = []) :
    d.calculate_adjustment_sets =
      .ok { d with adjustment_sets := some [[]], minimal_adjustment_sets := some [[]] } := by
  have hadj : adjustmentSetsOf d = [[]] := by
    simp [adjustmentSetsOf, candidatesOf, blocksAll, hb, List.sublists_nil, List.filter,
      List.pwFilter]
  have hmin : minimalAdjustmentSetsOf d = [[]] := by
    simp [minimalAdjustmentSetsOf, hadj, List.filter, isProperSubsetOf]
  rw [calculate_ok_iff d _]
  exact ⟨hne, hcyc, by rw [hadj, hmin]⟩

/-- C2 witness: scenario 2 (arrows (X,Y),(X,C),(Y,C), exposure X, outcome Y)
is accepted, has zero backdoor paths, and both result collections hold only
the empty set. -/
theorem zero_backdoor_paths_empty_set_witness :
    dagScenario2.exposure ≠ dagScenario2.outcome ∧
    dagScenario2.hasCycle = false ∧
    backdoor_paths dagScenario2 = [] ∧
    dagScenario2.calculate_adjustment_sets =
      .ok { dagScenario2 with adjustment_sets := some [[]],
                              minimal_adjustment_sets := some [[]] } := by
  have h1 : dagScenario2.exposure ≠ dagScenario2.outcome := by decide
  have h2 : dagScenario2.hasCycle = false := by rfl
  have h3 : backdoor_paths dagScenario2 = [] := by rfl
  exact ⟨h1, h2, h3, zero_backdoor_paths_empty_set dagScenario2 h1 h2 h3⟩

/-- C3: for the butterfly structure with arrows (X,Y),(B,X),(B,Y),(U1,X),
(U1,B),(U2,B),(U2,Y), exposure X and outcome Y, adjustment_sets holds exactly
the three sets containing U1 and B, B and U2, and U1, B and U2, and
minimal_adjustment_sets holds exactly the first two of them. -/
theorem adjustment_sets_butterfly :
    ∃ e S M, ((DirectedAcyclicGraph.init "X" "Y").add_arrows
        arrowButterfly).calculate_adjustment_sets = .ok e ∧
      e.adjustment_sets = some S ∧ e.minimal_adjustment_sets = some M ∧
      (S.map List.toFinset).Perm [{"U1","B"}, {"B","U2"}, {"U1","B","U2"}] ∧
      (M.map List.toFinset).Perm [{"U1","B"}, {"B","U2"}] :=
  ⟨_, _, _, rfl, rfl, rfl, by decide, by decide⟩

/-- C4: for the M-bias structure with arrows (X,Y),(U1,X),(U1,B),(U2,B),
(U2,Y), exposure X and outcome Y, adjustment_sets holds exactly the seven
subsets of the candidate variables U1, B, U2 other than the singleton
containing B alone (the empty set included), and minimal_adjustment_sets is
the single-element collection containing the empty set. -/
theorem adjustment_sets_mbias :
    ∃ e S M, ((DirectedAcyclicGraph.init "X" "Y").add_arrows
        arrowMbias).calculate_adjustment_sets = .ok e ∧
      e.adjustment_sets = some S ∧ e.minimal_adjustment_sets = some M ∧
      (S.map List.toFinset).Perm
        [(∅ : Finset String), {"U1"}, {"U2"}, {"U1","U2"},
          {"U1","B"}, {"B","U2"}, {"U1","B","U2"}] ∧
      (M.map List.toFinset).Perm [(∅ : Finset String)] :=
  ⟨_, _, _, rfl, rfl, rfl, by decide, by decide⟩

/-- C5: whenever calculate_adjustment_sets completes successfully, every
member of minimal_adjustment_sets is a member of adjustment_sets, and no
member of minimal_adjustment_sets is a proper superset (as sets of labels) of
another member: the minimal family is an antichain under set inclusion. -/
theorem minimal_sets_member_and_antichain (d e : DirectedAcyclicGraph)
    (S M : List (List String))
    (h : d.calculate_adjustment_sets = .ok e)
    (hS : e.adjustment_sets = some S) (hM : e.minimal_adjustment_sets = some M) :
    (∀ m ∈ M, m ∈ S) ∧ ∀ a ∈ M, ∀ b ∈ M, ¬ b.toFinset ⊂ a.toFinset := by
  rcases (calculate_ok_iff d e).mp h with ⟨-, -, rfl⟩
  simp only [Option.some.injEq] at hS hM
  subst hS
  subst hM
  constructor
  · intro m hm
    exact (List.mem_filter.mp hm).1
  · intro a ha b hb hss
    have hacond := (List.mem_filter.mp ha).2
    have hbS := (List.mem_filter.mp hb).1
    rw [Bool.not_eq_eq_eq_not, Bool.not_true, List.any_eq_false] at hacond
    exact absurd ((isProperSubsetOf_iff b a).mpr hss) (by simpa using hacond b hbS)

/-- C5 witness: the butterfly computation instantiates the membership and
antichain invariant. -/
theorem minimal_sets_member_and_antichain_witness :
    dagButterfly.calculate_adjustment_sets = .ok dagButterflyCalc ∧
    dagButterflyCalc.adjustment_sets =
      some [["U1","B"], ["B","U2"], ["U1","B","U2"]] ∧
    dagButterflyCalc.minimal_adjustment_sets = some [["U1","B"], ["B","U2"]] ∧
    ((∀ m ∈ [["U1","B"], ["B","U2"]],
        m ∈ [["U1","B"], ["B","U2"], ["U1","B","U2"]]) ∧
      ∀ a ∈ [["U1","B"], ["B","U2"]], ∀ b ∈ [["U1","B"], ["B","U2"]],
        ¬ (List.toFinset b) ⊂ (List.toFinset a)) :=
  ⟨rfl, rfl, rfl,
    minimal_sets_member_and_antichain dagButterfly dagButterflyCalc
      [["U1","B"], ["B","U2"], ["U1","B","U2"]] [["U1","B"], ["B","U2"]] rfl rfl rfl⟩

/-- C6: whenever calculate_adjustment_sets completes successfully, the
adjustment_sets collection holds no two members that are equal as sets of node
labels. -/
theorem adjustment_sets_no_duplicates (d e : DirectedAcyclicGraph)
    (S : List (List String))
    (h : d.calculate_adjustment_sets = .ok e) (hS : e.adjustment_sets = some S) :
    S.Pairwise distinctAsSets := by
  rcases (calculate_ok_iff d e).mp h with ⟨-, -, rfl⟩
  simp only [Option.some.injEq] at hS
  subst hS
  exact List.pairwise_pwFilter _

/-- C6 witness: the scenario 1 computation instantiates the deduplication
invariant. -/
theorem adjustment_sets_no_duplicates_witness :
    dagScenario1.calculate_adjustment_sets = .ok dagScenario1Calc ∧
    dagScenario1Calc.adjustment_sets = some [["Z","W"], ["Z","V"], ["Z","W","V"]] ∧
    List.Pairwise distinctAsSets [["Z","W"], ["Z","V"], ["Z","W","V"]] :=
  ⟨rfl, rfl,
    adjustment_sets_no_duplicates dagScenario1 dagScenario1Calc
      [["Z","W"], ["Z","V"], ["Z","W","V"]] rfl rfl⟩

/-- C7: for every arrow collection whose induced directed graph contains a
cycle, add_arrows inserts the arrows without error (it is a total operation),
and the subsequent call to calculate_adjustment_sets raises
GraphStructureError: the acyclicity check runs at computation time, not at
insertion time. -/
theorem cycle_error_at_computation (expo outc : String) (pairs : List Arrow)
    (h : ∃ n, Reaches pairs n n) :
    ((DirectedAcyclicGraph.init expo outc).add_arrows pairs).calculate_adjustment_sets =
      .error .GraphStructureError := by
  obtain ⟨n, hn⟩ := h
  have harr : ∀ x : Arrow,
      x ∈ ((DirectedAcyclicGraph.init expo outc).add_arrows pairs).arrows ↔ x ∈ pairs := by
    intro x
    simp only [DirectedAcyclicGraph.add_arrows, DirectedAcyclicGraph.init]
    rw [mem_foldl_insertArrow]
    simp
  have hre : Reaches ((DirectedAcyclicGraph.init expo outc).add_arrows pairs).arrows n n :=
    hn.congr_mem (fun x => (harr x).symm)
  have hcyc : ((DirectedAcyclicGraph.init expo outc).add_arrows pairs).hasCycle = true := by
    unfold DirectedAcyclicGraph.hasCycle hasCycleB
    rw [List.any_eq_true]
    refine ⟨n, ?_, by simpa using hre.mem_descendantsOf⟩
    obtain ⟨w, hw⟩ := hre.src_has_arrow
    unfold nodesOf
    rw [List.mem_dedup]
    exact List.mem_cons_of_mem _ (List.mem_cons_of_mem _
      (List.mem_flatMap.mpr ⟨(n, w), hw, by simp⟩))
  unfold DirectedAcyclicGraph.calculate_adjustment_sets
  rw [hcyc]
  simp

/-- C7 witness: the two arrows (A,B),(B,A) form a cycle; inserting them
succeeds and the computation raises GraphStructureError. -/
theorem cycle_error_at_computation_witness :
    Reaches [(("A" : String), ("B" : String)), ("B", "A")] "A" "A" ∧
    ((DirectedAcyclicGraph.init "X" "Y").add_arrows
        [("A","B"), ("B","A")]).calculate_adjustment_sets =
      .error .GraphStructureError := by
  have h0 : Reaches [(("A" : String), ("B" : String)), ("B", "A")] "A" "B" :=
    .single (by simp)
  have h : Reaches [(("A" : String), ("B" : String)), ("B", "A")] "A" "A" :=
    .tail h0 (by simp)
  exact ⟨h, cycle_error_at_computation "X" "Y" _ ⟨"A", h⟩⟩

/-- C8: calculate_adjustment_sets is idempotent: a second call on the state
returned by a successful call, with no intervening add_arrows, returns the
same state with identical adjustment_sets and minimal_adjustment_sets. -/
theorem calculate_idempotent (d e : DirectedAcyclicGraph)
    (h : d.calculate_adjustment_sets = .ok e) :
    e.calculate_adjustment_sets = .ok e := by
  rcases (calculate_ok_iff d e).mp h with ⟨hne, hcyc, rfl⟩
  exact (calculate_ok_iff _ _).mpr ⟨hne, hcyc, rfl⟩

/-- C8 witness: idempotence at the scenario 1 state. -/
theorem calculate_idempotent_witness :
    dagScenario1.calculate_adjustment_sets = .ok dagScenario1Calc ∧
    dagScenario1Calc.calculate_adjustment_sets = .ok dagScenario1Calc :=
  ⟨rfl, calculate_idempotent dagScenario1 dagScenario1Calc rfl⟩

/-- C9 counterexample: at stand_effect_size = -1, se = 0, null = 1/2 both
stated hypotheses hold (m is at least null and l exceeds null), yet the
function raises ValueError from math.sqrt of the negative m*(m-1), not
NameError: line 218 executes before the confidence-limit branch. -/
theorem e_value_difference_valueError_counterexample :
    Real.exp (0.91 * (-1)) / (1/2) ≥ (1/2) ∧
    Real.exp ((0.91 * (-1)) - (1.78 * 0)) / (1/2) > (1/2) ∧
    e_value_difference (-1) 0 (1/2) = .error .ValueError ∧
    e_value_difference (-1) 0 (1/2) ≠ .error .NameError := by
  obtain ⟨hlo, hhi⟩ := exp_091_bounds
  have hE : Real.exp (0.91 * (-1)) = (Real.exp 0.91)⁻¹ := by
    rw [show (0.91 : ℝ) * (-1) = -0.91 by norm_num, Real.exp_neg]
  have hEpos : (0 : ℝ) < Real.exp 0.91 := Real.exp_pos _
  have hmval : Real.exp (0.91 * (-1)) / (1/2 : ℝ) = 2 / Real.exp 0.91 := by
    rw [hE]; field_simp
  have h1 : Real.exp (0.91 * (-1)) / (1/2 : ℝ) ≥ (1/2 : ℝ) := by
    rw [hmval, ge_iff_le, le_div_iff hEpos]; linarith
  have hm1 : Real.exp (0.91 * (-1)) / (1/2 : ℝ) < 1 := by
    rw [hmval, div_lt_one hEpos]; linarith
  have hmpos : (0:ℝ) < Real.exp (0.91 * (-1)) / (1/2 : ℝ) := by
    rw [hmval]; positivity
  have h2 : Real.exp ((0.91 * (-1)) - (1.78 * 0)) / (1/2 : ℝ) > (1/2 : ℝ) := by
    rw [show (0.91 : ℝ) * (-1) - 1.78 * 0 = 0.91 * (-1) by ring]
    rw [hmval, gt_iff_lt, div_lt_div_iff (by norm_num) hEpos]
    linarith
  have hcomp : e_value_difference (-1) 0 (1/2) = .error .ValueError := by
    rw [e_value_difference]
    rw [pydiv, if_neg (by norm_num : ¬ ((1:ℝ)/2) = 0)]
    simp only [Except.bind]
    rw [pydiv, if_neg (by norm_num : ¬ ((1:ℝ)/2) = 0)]
    simp only [Except.bind]
    rw [pydiv, if_neg (by norm_num : ¬ ((1:ℝ)/2) = 0)]
    simp only [Except.bind]
    rw [if_pos (ge_iff_le.mp h1)]
    rw [pysqrt, if_pos (mul_neg_of_pos_of_neg hmpos (by linarith))]
  exact ⟨h1, h2, hcomp, by rw [hcomp]; simp⟩

/-- C9 amended: for every input to e_value_difference with
exp(0.91*stand_effect_size)/null at least null, with
exp(0.91*stand_effect_size - 1.78*se)/null exceeding null, and with m*(m-1)
nonnegative for m = exp(0.91*stand_effect_size)/null (so that the
point-estimate square root on line 218 is defined, which holds automatically
for null at least 1), the function raises NameError instead of printing an
E-value result, because the confidence-limit branch on line 220 references the
undefined name lcl rather than the computed lower limit l. -/
theorem e_value_difference_raises_nameError (stand_effect_size se null : ℝ)
    (h1 : Real.exp (0.91 * stand_effect_size) / null ≥ null)
    (h2 : Real.exp ((0.91 * stand_effect_size) - (1.78 * se)) / null > null)
    (h3 : 0 ≤ Real.exp (0.91 * stand_effect_size) / null *
      (Real.exp (0.91 * stand_effect_size) / null - 1)) :
    e_value_difference stand_effect_size se null = .error .NameError := by
  have hnull : null ≠ 0 := by
    intro h
    rw [h, div_zero] at h2
    exact absurd h2 (lt_irrefl 0)
  rw [e_value_difference]
  rw [pydiv, if_neg hnull]
  simp only [Except.bind]
  rw [pydiv, if_neg hnull]
  simp only [Except.bind]
  rw [pydiv, if_neg hnull]
  simp only [Except.bind]
  rw [if_pos (ge_iff_le.mp h1)]
  rw [pysqrt, if_neg (not_lt.mpr h3)]
  simp only [Except.bind]
  rw [if_pos h2]

/-- C9 witness: at stand_effect_size = 1, se = 1/10, null = 1 all three
hypotheses hold and the function raises NameError. -/
theorem e_value_difference_raises_nameError_witness :
    Real.exp (0.91 * 1) / 1 ≥ 1 ∧
    Real.exp ((0.91 * 1) - (1.78 * (1/10))) / 1 > 1 ∧
    0 ≤ Real.exp (0.91 * 1) / 1 * (Real.exp (0.91 * 1) / 1 - 1) ∧
    e_value_difference 1 (1/10) 1 = .error .NameError := by
  have he1 : (1.91 : ℝ) ≤ Real.exp (0.91 * 1) := by
    have := Real.add_one_le_exp (0.91 * 1 : ℝ); linarith
  have he2 : (1.732 : ℝ) ≤ Real.exp ((0.91 * 1) - (1.78 * (1/10))) := by
    have := Real.add_one_le_exp ((0.91 * 1) - (1.78 * (1/10)) : ℝ); linarith
  have h1 : Real.exp (0.91 * 1) / 1 ≥ (1:ℝ) := by rw [div_one]; linarith
  have h2 : Real.exp ((0.91 * 1) - (1.78 * (1/10))) / 1 > (1:ℝ) := by
    rw [div_one]; linarith
  have h3 : (0:ℝ) ≤ Real.exp (0.91 * 1) / 1 * (Real.exp (0.91 * 1) / 1 - 1) := by
    rw [div_one]
    apply mul_nonneg (by linarith) (by linarith)
  exact ⟨h1, h2, h3, e_value_difference_raises_nameError 1 (1/10) 1 h1 h2 h3⟩

/-- C10 counterexample: at N = 1, f = 1/2, p1 = p0 = 0, null = 0 the stated
hypothesis p1 - p0 at most null holds, yet the function raises
ZeroDivisionError (the denominator 2*p0*f of line 274 is zero), not
ValueError. -/
theorem e_value_RD_zeroDivision_counterexample :
    ((0:ℝ) - 0 ≤ 0) ∧
    e_value_RD 1 (1/2) 0 0 0 0 0 (1/20) = .error .ZeroDivisionError ∧
    e_value_RD 1 (1/2) 0 0 0 0 0 (1/20) ≠ .error .ValueError := by
  have hcomp : e_value_RD 1 (1/2) 0 0 0 0 0 (1/20) = .error .ZeroDivisionError := by
    rw [e_value_RD, if_neg (lt_irrefl 0)]
    rw [pydiv, if_neg (by norm_num : (1:ℝ) ≠ 0)]
    simp only [Except.bind]
    rw [pysqrt, if_neg (by norm_num)]
    simp only [Except.bind]
    rw [pydiv, if_pos (by norm_num)]
  exact ⟨by norm_num, hcomp, by rw [hcomp]; simp⟩

/-- C10 amended: whenever p1 is below p0 the function raises ValueError at
once, before any arithmetic (so even a zero N cannot interfere); and for every
input with p1 - p0 at most null in which the preceding arithmetic is
nondegenerate (N nonzero, p0 positive, f strictly between 0 and 1), the
function raises ValueError and prints no result, the check on line 280 running
only after the point-estimate E-value has been computed.  At degenerate inputs
such as p0 = 0 that arithmetic raises ZeroDivisionError first instead. -/
theorem e_value_RD_raises_valueError :
    (∀ N f p1 se1 p0 se0 null alpha : ℝ, p1 < p0 →
      e_value_RD N f p1 se1 p0 se0 null alpha = .error .ValueError) ∧
    (∀ N f p1 se1 p0 se0 null alpha : ℝ, N ≠ 0 → 0 < p0 → 0 < f → f < 1 →
      p1 - p0 ≤ null → e_value_RD N f p1 se1 p0 se0 null alpha = .error .ValueError) := by
  constructor
  · intro N f p1 se1 p0 se0 null alpha h
    rw [e_value_RD, if_pos h]
  · intro N f p1 se1 p0 se0 null alpha hN hp0 hf hf1 hnull
    rw [e_value_RD]
    by_cases hlt : p1 < p0
    · rw [if_pos hlt]
    · rw [if_neg hlt]
      push_neg at hlt
      rw [pydiv, if_neg hN]
      simp only [Except.bind]
      have hp1 : 0 < p1 := lt_of_lt_of_le hp0 hlt
      have hf1x : 0 < 1 - f := by linarith
      have hArg : 0 ≤ (null + ((p0 * (1 - f)) - (p1 * f))) ^ 2 +
          (4 * p1 * p0 * f * (1 - f)) := by positivity
      rw [pysqrt, if_neg (not_lt.mpr hArg)]
      simp only [Except.bind]
      have hden : (2 * p0 * f) ≠ 0 := by positivity
      rw [pydiv, if_neg hden]
      simp only [Except.bind]
      have hmpos : 0 < (Real.sqrt ((null + ((p0 * (1 - f)) - (p1 * f))) ^ 2 +
          (4 * p1 * p0 * f * (1 - f))) - (null + ((p0 * (1 - f)) - (p1 * f)))) /
          (2 * p0 * f) := by
        apply div_pos _ (by positivity)
        have habs : |null + ((p0 * (1 - f)) - (p1 * f))| <
            Real.sqrt ((null + ((p0 * (1 - f)) - (p1 * f))) ^ 2 +
              (4 * p1 * p0 * f * (1 - f))) := by
          rw [← Real.sqrt_sq_eq_abs]
          apply Real.sqrt_lt_sqrt (sq_nonneg _)
          have : 0 < 4 * p1 * p0 * f * (1 - f) := by positivity
          linarith
        have hb := le_abs_self (null + ((p0 * (1 - f)) - (p1 * f)))
        linarith
      set m := (Real.sqrt ((null + ((p0 * (1 - f)) - (p1 * f))) ^ 2 +
          (4 * p1 * p0 * f * (1 - f))) - (null + ((p0 * (1 - f)) - (p1 * f)))) /
          (2 * p0 * f) with hmdef
      by_cases hnm : null ≤ m
      · rw [if_pos hnm]
        by_cases hsq : m * (m - 1) < 0
        · rw [pysqrt, if_pos hsq]
        · rw [pysqrt, if_neg hsq]
          simp only [Except.bind]
          rw [if_pos hnull]
      · rw [if_neg hnm]
        rw [pydiv, if_neg (ne_of_gt hmpos)]
        simp only [Except.bind]
        by_cases hsq : 1 / m * (1 / m - 1) < 0
        · rw [pysqrt, if_pos hsq]
        · rw [pysqrt, if_neg hsq]
          simp only [Except.bind]
          rw [if_pos hnull]

/-- C10 witness: with p1 = 1 below p0 = 2 the function raises ValueError even
at N = 0 (the check precedes the arithmetic), and at the nondegenerate input
N = 100, f = 1/2, p1 = p0 = 3/10, null = 0 it raises ValueError through the
line 280 check. -/
theorem e_value_RD_raises_valueError_witness :
    ((1:ℝ) < 2 ∧ e_value_RD 0 0 1 0 2 0 0 (1/20) = .error .ValueError) ∧
    ((100:ℝ) ≠ 0 ∧ (0:ℝ) < 3/10 ∧ (0:ℝ) < 1/2 ∧ (1/2:ℝ) < 1 ∧ (3/10:ℝ) - 3/10 ≤ 0) ∧
    e_value_RD 100 (1/2) (3/10) 0 (3/10) 0 0 (1/20) = .error .ValueError := by
  refine ⟨⟨by norm_num, e_value_RD_raises_valueError.1 0 0 1 0 2 0 0 (1/20) (by norm_num)⟩,
    ⟨by norm_num, by norm_num, by norm_num, by norm_num, by norm_num⟩,
    e_value_RD_raises_valueError.2 100 (1/2) (3/10) 0 (3/10) 0 0 (1/20) (by norm_num)
      (by norm_num) (by norm_num) (by norm_num) (by norm_num)⟩
